import Mathlib

/-!
Verification development for the jr job registry: a shallow embedding of the
job store (db/db.go), the systemd adapter helpers (systemd package), and the
command-layer state computations (cmd package), with theorems checking the
natural-language specification against this embedding.

Conventions of the embedding:
* timestamps are natural numbers; the Go code stores RFC3339 UTC strings whose
  lexicographic order coincides with chronological order, so comparisons on
  Nat model the string comparisons of the SQL queries faithfully;
* the SQLite table is a list of rows plus the AUTOINCREMENT counter;
* fallible operations return Except String, absent lookups return Option.
-/

/-- A row of the jobs table (db.go, type Job / createTables). Nullable
columns are Options; created time and state time are Nat timestamps. -/
structure Job where
  id : Nat
  createdAtUTC : Nat
  name : String
  unit : String
  cwd : String
  argv : List String
  env : Option (List (String × String))
  props : Option (List (String × String))
  host : Option String
  user : Option String
  notes : Option String
  lastKnownState : Option String
  lastStateAtUTC : Option Nat
deriving DecidableEq

/-- The persistent store: the jobs table plus the AUTOINCREMENT counter
(SQLite assigns ids monotonically, starting at 1). -/
structure DBState where
  jobs : List Job
  nextId : Nat
deriving DecidableEq

def emptyDB : DBState := { jobs := [], nextId := 1 }

/-- The error message SQLite raises on a violation of the UNIQUE constraint
on the unit column (createTables: unit TEXT UNIQUE NOT NULL). -/
def uniqueViolation : String := "UNIQUE constraint failed: jobs.unit"

/-- db.go CreateJob: INSERT a fresh row. The UNIQUE constraint on unit makes
the insert fail, changing nothing, when some stored row already has this
unit; host and user are stored as NULL when empty (sql.NullString with
Valid: host != ""). Returns the new row id (LastInsertId). -/
def CreateJob (st : DBState) (now : Nat) (name unit cwd : String)
    (argv : List String) (env props : Option (List (String × String)))
    (host user : String) : Except String (DBState × Nat) :=
  if st.jobs.any (fun j => j.unit == unit) then
    .error uniqueViolation
  else
    .ok ({ jobs := st.jobs ++
             [{ id := st.nextId, createdAtUTC := now, name := name, unit := unit,
                cwd := cwd, argv := argv, env := env, props := props,
                host := if host == "" then none else some host,
                user := if user == "" then none else some user,
                notes := none, lastKnownState := none, lastStateAtUTC := none }],
           nextId := st.nextId + 1 },
          st.nextId)

/-- db.go GetJobByID: SELECT by primary key; no row is the non-error
absent outcome (scanJob maps sql.ErrNoRows to nil, nil). -/
def GetJobByID (st : DBState) (id : Int) : Option Job :=
  st.jobs.find? (fun j => (j.id : Int) == id)

/-- db.go GetJobByUnit: SELECT by the unit column. -/
def GetJobByUnit (st : DBState) (unit : String) : Option Job :=
  st.jobs.find? (fun j => j.unit == unit)

/-- Value of a list of decimal digit characters. -/
def digitsVal (ds : List Char) : Nat :=
  ds.foldl (fun acc c => acc * 10 + (c.toNat - 48)) 0

/-- Bounds of Go's int64, the type parseInt scans into. -/
def int64Min : Int := -9223372036854775808

def int64Max : Int := 9223372036854775807

/-- db.go parseInt, which calls fmt.Sscanf(s, "%d", &id) with id an int64.
Go's Sscanf with verb %d skips leading horizontal blanks, reads an
optional sign and then a non-empty run of decimal digits, and IGNORES any
trailing input; so "12abc" parses as 12. It errors when no digits can be
read at the front, and also when the signed digit run overflows int64
(strconv.ParseInt range error), so a 20-digit token yields none. -/
def parseInt (s : String) : Option Int :=
  let cs := s.data.dropWhile (fun c => c == ' ' || c == '\t')
  let signed : Bool × List Char :=
    match cs with
    | '-' :: r => (true, r)
    | '+' :: r => (false, r)
    | r => (false, r)
  let ds := signed.2.takeWhile (fun c => 48 ≤ c.toNat && c.toNat ≤ 57)
  if ds.isEmpty then none
  else
    let v : Int := if signed.1 then -(digitsVal ds : Int) else (digitsVal ds : Int)
    if v < int64Min ∨ int64Max < v then none
    else some v

/-- db.go FindJobByPartial: when parseInt succeeds the token is resolved as
a numeric id, otherwise (no leading digits, or int64 overflow) as a unit
name; there is no fallback from one mode to the other. -/
def FindJobByPartial (st : DBState) (tok : String) : Option Job :=
  match parseInt tok with
  | some id => GetJobByID st id
  | none => GetJobByUnit st tok

/-- The ORDER BY created_at_utc DESC relation of the list queries. -/
def createdGe (a b : Job) : Prop := b.createdAtUTC ≤ a.createdAtUTC

instance : DecidableRel createdGe := fun _ _ => Nat.decLe _ _

instance : IsTotal Job createdGe :=
  ⟨fun a b => Nat.le_total b.createdAtUTC a.createdAtUTC⟩

instance : IsTrans Job createdGe :=
  ⟨fun _ _ _ hab hbc => Nat.le_trans hbc hab⟩

/-- Rows in the order ORDER BY created_at_utc DESC produces them. -/
def sortJobs (l : List Job) : List Job := l.insertionSort createdGe

/-- db.go ListJobs: ordered by created_at_utc DESC; with all the LIMIT
clause is absent, otherwise LIMIT is applied after ordering. -/
def ListJobs (st : DBState) (limit : Nat) (all : Bool) : List Job :=
  if all then sortJobs st.jobs else (sortJobs st.jobs).take limit

/-- Go strings.ToLower for one ASCII rune; sanitizeName writes
r + ('a' - 'A') for runes in A..Z, which is code point plus 32. -/
def lowerAscii (c : Char) : Char :=
  if 65 ≤ c.toNat ∧ c.toNat ≤ 90 then Char.ofNat (c.toNat + 32) else c

/-- One character comparison of the SQLite LIKE operator: ASCII-only case
folding (default PRAGMA case_sensitive_like = OFF). -/
def likeCharEq (p c : Char) : Bool := lowerAscii p == lowerAscii c

/-- All suffixes of a character list, the list itself first. -/
def suffixes : List Char → List (List Char)
  | [] => [[]]
  | c :: cs => (c :: cs) :: suffixes cs

/-- The SQLite LIKE operator without ESCAPE: a percent sign matches any
sequence of characters (some suffix of the input matches the rest of the
pattern), an underscore matches exactly one character, every other pattern
character matches one input character up to ASCII case. -/
def likeMatch : List Char → List Char → Bool
  | [], s => s.isEmpty
  | '%' :: ps, s => (suffixes s).any (fun t => likeMatch ps t)
  | '_' :: ps, s =>
    match s with
    | [] => false
    | _ :: cs => likeMatch ps cs
  | p :: ps, s =>
    match s with
    | [] => false
    | c :: cs => likeCharEq p c && likeMatch ps cs

/-- String form of the SQLite LIKE match. -/
def sqlLike (pat s : String) : Bool := likeMatch pat.data s.data

/-- db.go ListJobsByName: SELECT WHERE name LIKE (name ++ "%") ORDER BY
created_at_utc DESC LIMIT limit. -/
def ListJobsByName (st : DBState) (name : String) (limit : Nat) : List Job :=
  ((sortJobs st.jobs).filter (fun j => sqlLike (name ++ "%") j.name)).take limit

/-- db.go PruneJobs: DELETE the rows matching the conjunction of the active
filter conditions; with no active condition the function returns before
touching the table. The keep filter is the subquery
id NOT IN (SELECT id FROM jobs ORDER BY created_at_utc DESC LIMIT keep),
computed over the whole table; the age filter compares created_at_utc with
now minus olderThan; the failed filter is last_known_state = 'failed'
(false on NULL, as in SQL). -/
def PruneJobs (st : DBState) (now : Int) (keep : Int) (olderThan : Int)
    (failedOnly : Bool) : DBState :=
  if keep ≤ 0 ∧ olderThan ≤ 0 ∧ failedOnly = false then st
  else
    let keepIds : List Nat := ((sortJobs st.jobs).take keep.toNat).map Job.id
    let cond : Job → Bool := fun j =>
      (!(decide (0 < keep)) || !(decide (j.id ∈ keepIds))) &&
      (!(decide (0 < olderThan)) || decide ((j.createdAtUTC : Int) < now - olderThan)) &&
      (!failedOnly || decide (j.lastKnownState = some "failed"))
    { st with jobs := st.jobs.filter (fun j => !(cond j)) }

/-- db.go UpdateJobState: UPDATE last_known_state and last_state_at_utc by
id. DB.Exec reports no error when the WHERE clause matches zero rows (the
code never inspects RowsAffected), so the call is an error only on engine
failure, which the embedding has no source of: it always returns ok. -/
def UpdateJobState (st : DBState) (now : Nat) (id : Int) (state : String) :
    Except String DBState :=
  .ok { st with
        jobs := st.jobs.map (fun j =>
          if (j.id : Int) == id then
            { j with lastKnownState := some state, lastStateAtUTC := some now }
          else j) }

/-- systemd UnitInfo: the transient snapshot of one unit as systemctl show
reports it; all fields default to the zero value (empty string). -/
structure UnitInfo where
  unit : String := ""
  activeState : String := ""
  subState : String := ""
  execMainStatus : String := ""
  execMainPID : String := ""
  execMainStartTimestamp : String := ""
  execMainExitTimestamp : String := ""
deriving DecidableEq

/-- The zeroed snapshot parseShowOutput seeds for every requested unit. -/
def emptyInfo (u : String) : UnitInfo := { unit := u }

/-- systemd GetStateString: the reconciliation of a live snapshot into one
state string. -/
def GetStateString (info : UnitInfo) : String :=
  if info.activeState = "active" then "active"
  else if info.activeState = "inactive" then
    if info.execMainStatus ≠ "" ∧ info.execMainStatus ≠ "0" then "failed"
    else "exited"
  else if info.activeState = "failed" then "failed"
  else info.activeState

/-- systemd sanitizeName, one rune: ASCII lower-case letters, digits and
dot, dash, underscore pass through; upper-case ASCII letters are shifted to
lower case by adding 32; every other rune becomes an underscore. The Nat
comparisons are the Go rune comparisons against 'a', 'z', 'A', 'Z', '0',
'9'. -/
def sanitizeChar (c : Char) : Char :=
  if 97 ≤ c.toNat ∧ c.toNat ≤ 122 then c
  else if 65 ≤ c.toNat ∧ c.toNat ≤ 90 then Char.ofNat (c.toNat + 32)
  else if 48 ≤ c.toNat ∧ c.toNat ≤ 57 then c
  else if c = '.' ∨ c = '-' ∨ c = '_' then c
  else '_'

/-- systemd sanitizeName: the per-rune map applied to the whole string (the
Go loop ranges over runes and writes one rune per input rune). -/
def sanitizeName (s : String) : String := ⟨s.data.map sanitizeChar⟩

/-- Characters sanitizeName emits: the fixed points of sanitizeChar. -/
def safeChar (c : Char) : Prop :=
  (97 ≤ c.toNat ∧ c.toNat ≤ 122) ∨ (48 ≤ c.toNat ∧ c.toNat ≤ 57) ∨
    c.toNat = 46 ∨ c.toNat = 45 ∨ c.toNat = 95

instance (c : Char) : Decidable (safeChar c) := by
  unfold safeChar; infer_instance

theorem char_toNat_ofNat {n : Nat} (h : n.isValidChar) :
    (Char.ofNat n).toNat = n := by
  rw [Char.ofNat, dif_pos h]
  rfl

theorem char_eq_of_toNat_eq {c d : Char} (h : c.toNat = d.toNat) : c = d := by
  have hc := Char.ofNat_toNat c
  have hd := Char.ofNat_toNat d
  rw [← hc, ← hd, h]

theorem sanitizeChar_safe (c : Char) : safeChar (sanitizeChar c) := by
  unfold sanitizeChar
  split_ifs with h1 h2 h3 h4
  · exact Or.inl h1
  · have hv : (c.toNat + 32).isValidChar := Or.inl (by omega)
    have := char_toNat_ofNat hv
    exact Or.inl (by omega)
  · exact Or.inr (Or.inl h3)
  · rcases h4 with rfl | rfl | rfl <;> simp [safeChar]
  · simp [safeChar]

theorem sanitizeChar_of_safe {c : Char} (h : safeChar c) :
    sanitizeChar c = c := by
  unfold sanitizeChar
  rcases h with h | h | h | h | h
  · rw [if_pos h]
  · rw [if_neg (by omega), if_neg (by omega), if_pos h]
  · have : c = '.' := char_eq_of_toNat_eq (by simpa using h)
    subst this; rfl
  · have : c = '-' := char_eq_of_toNat_eq (by simpa using h)
    subst this; rfl
  · have : c = '_' := char_eq_of_toNat_eq (by simpa using h)
    subst this; rfl

theorem sanitizeChar_idem (c : Char) :
    sanitizeChar (sanitizeChar c) = sanitizeChar c :=
  sanitizeChar_of_safe (sanitizeChar_safe c)

/-- The tagged reconciled-state variant the specification describes, and the
mapping rule in the specification's own order. This definition follows the
spec text, to be compared with GetStateString. -/
inductive ReconciledState where
  | active
  | exited
  | failed
  | passthrough (raw : String)
deriving DecidableEq

def reconcileSpec (coarse exitStatus : String) : ReconciledState :=
  if coarse = "active" then .active
  else if coarse = "inactive" then
    if exitStatus ≠ "" ∧ exitStatus ≠ "0" then .failed else .exited
  else if coarse = "failed" then .failed
  else .passthrough coarse

def ReconciledState.render : ReconciledState → String
  | .active => "active"
  | .exited => "exited"
  | .failed => "failed"
  | .passthrough raw => raw

/-- C2: for every live unit snapshot the reconciled state is: coarse
activity active gives active regardless of exit status; inactive gives
failed when the recorded exit status is non-empty and not "0" and exited
otherwise; failed gives failed; any other coarse activity value is passed
through unchanged. GetStateString agrees with the spec's mapping rule,
rendered back to the state string. -/
theorem c2_reconcile_mapping (info : UnitInfo) :
    GetStateString info =
      (reconcileSpec info.activeState info.execMainStatus).render := by
  unfold GetStateString reconcileSpec
  split_ifs <;> rfl

/-- C9: sanitizeName maps each character independently (the result's
characters are exactly the per-character images), is idempotent, and sends
"a.b-c_d" to itself and "Hello World" to "hello_world". -/
theorem c9_sanitize_idempotent :
    (∀ s : String, (sanitizeName s).data = s.data.map sanitizeChar) ∧
    (∀ s : String, sanitizeName (sanitizeName s) = sanitizeName s) ∧
    sanitizeName "a.b-c_d" = "a.b-c_d" ∧
    sanitizeName "Hello World" = "hello_world" := by
  refine ⟨fun s => rfl, fun s => ?_, by decide, by decide⟩
  show (⟨(s.data.map sanitizeChar).map sanitizeChar⟩ : String) = ⟨s.data.map sanitizeChar⟩
  rw [List.map_map]
  congr 1
  exact List.map_congr_left (fun c _ => sanitizeChar_idem c)

/-- One call of the run flow's persistence step (cmd/run.go calls
db.CreateJob once per launched job): the arguments of one CreateJob call. -/
structure CreateReq where
  now : Nat
  name : String
  unit : String
  cwd : String
  argv : List String
  env : Option (List (String × String)) := none
  props : Option (List (String × String)) := none
  host : String := ""
  user : String := ""
deriving DecidableEq

def createJobReq (st : DBState) (r : CreateReq) : Except String (DBState × Nat) :=
  CreateJob st r.now r.name r.unit r.cwd r.argv r.env r.props r.host r.user

/-- The store after one create call; a failed insert leaves the store as it
was (the INSERT is rejected by the UNIQUE constraint before any change). -/
def applyCreate (st : DBState) (r : CreateReq) : DBState :=
  match createJobReq st r with
  | .ok (st', _) => st'
  | .error _ => st

/-- The store after a sequence of create calls. -/
def runCreates (st : DBState) (rs : List CreateReq) : DBState :=
  rs.foldl applyCreate st

/-- The uniqueness invariant of the unit column. -/
def UnitsUnique (st : DBState) : Prop :=
  st.jobs.Pairwise (fun a b => a.unit ≠ b.unit)

theorem any_unit_eq_true {st : DBState} {u : String} :
    st.jobs.any (fun j => j.unit == u) = true ↔ ∃ j ∈ st.jobs, j.unit = u := by
  simp [List.any_eq_true]

theorem unitsUnique_applyCreate (st : DBState) (r : CreateReq)
    (h : UnitsUnique st) : UnitsUnique (applyCreate st r) := by
  unfold applyCreate createJobReq CreateJob
  rcases hany : st.jobs.any (fun j => j.unit == r.unit) with _ | _
  · have hall : ∀ j ∈ st.jobs, j.unit ≠ r.unit := by
      intro j hj
      have := (Bool.not_eq_true _).mpr hany
      rw [any_unit_eq_true] at this
      exact fun he => this ⟨j, hj, he⟩
    simp only [hany, Bool.false_eq_true, if_false]
    unfold UnitsUnique
    rw [List.pairwise_append]
    refine ⟨h, List.pairwise_singleton _ _, ?_⟩
    intro a ha b hb
    simp only [List.mem_singleton] at hb
    subst hb
    exact hall a ha
  · simp only [hany, if_true]
    exact h

theorem unitsUnique_runCreates (rs : List CreateReq) (st : DBState)
    (h : UnitsUnique st) : UnitsUnique (runCreates st rs) := by
  induction rs generalizing st with
  | nil => exact h
  | cons r rs ih => exact ih (applyCreate st r) (unitsUnique_applyCreate st r h)

/-- C1: for every sequence of create operations no two stored records share
a unit; a create whose unit equals that of a stored record fails with the
uniqueness-violation error and leaves the store unchanged, while a create
with a fresh unit succeeds and appends exactly one record (carrying that
unit and the next id). -/
theorem c1_unit_id_uniqueness :
    (∀ rs : List CreateReq, UnitsUnique (runCreates emptyDB rs)) ∧
    (∀ st r, (∃ j ∈ st.jobs, j.unit = r.unit) →
      createJobReq st r = .error uniqueViolation ∧ applyCreate st r = st) ∧
    (∀ st r, (∀ j ∈ st.jobs, j.unit ≠ r.unit) →
      ∃ j, createJobReq st r =
          .ok ({ jobs := st.jobs ++ [j], nextId := st.nextId + 1 }, st.nextId) ∧
        j.unit = r.unit ∧ j.id = st.nextId) := by
  refine ⟨fun rs => unitsUnique_runCreates rs emptyDB List.Pairwise.nil, ?_, ?_⟩
  · intro st r hdup
    have hany : st.jobs.any (fun j => j.unit == r.unit) = true :=
      any_unit_eq_true.mpr hdup
    constructor
    · unfold createJobReq CreateJob
      rw [if_pos hany]
    · unfold applyCreate createJobReq CreateJob
      rw [if_pos hany]
  · intro st r hfresh
    have hany : st.jobs.any (fun j => j.unit == r.unit) = false := by
      rw [← Bool.not_eq_true, any_unit_eq_true]
      rintro ⟨j, hj, he⟩
      exact hfresh j hj he
    refine ⟨{ id := st.nextId, createdAtUTC := r.now, name := r.name,
              unit := r.unit, cwd := r.cwd, argv := r.argv, env := r.env,
              props := r.props,
              host := if r.host == "" then none else some r.host,
              user := if r.user == "" then none else some r.user,
              notes := none, lastKnownState := none, lastStateAtUTC := none },
            ?_, rfl, rfl⟩
    unfold createJobReq CreateJob
    rw [if_neg (by simp [hany])]

def reqA : CreateReq :=
  { now := 10, name := "train", unit := "jr-train-20260101-000010-01AB.service",
    cwd := "/home/u", argv := ["python", "train.py"] }

def reqB : CreateReq :=
  { now := 20, name := "serve", unit := "jr-serve-20260101-000020-02CD.service",
    cwd := "/srv", argv := ["server", "--port", "80"] }

def reqC : CreateReq :=
  { now := 30, name := "etl", unit := "jr-etl-20260101-000030-03EF.service",
    cwd := "/data", argv := ["etl"] }

theorem c1_witness :
    UnitsUnique (runCreates emptyDB [reqA, reqB]) ∧
    (createJobReq (runCreates emptyDB [reqA, reqB]) reqA = .error uniqueViolation ∧
      applyCreate (runCreates emptyDB [reqA, reqB]) reqA =
        runCreates emptyDB [reqA, reqB]) ∧
    (∃ j, createJobReq (runCreates emptyDB [reqA, reqB]) reqC =
        .ok ({ jobs := (runCreates emptyDB [reqA, reqB]).jobs ++ [j],
               nextId := (runCreates emptyDB [reqA, reqB]).nextId + 1 },
             (runCreates emptyDB [reqA, reqB]).nextId) ∧
      j.unit = reqC.unit ∧ j.id = (runCreates emptyDB [reqA, reqB]).nextId) :=
  ⟨c1_unit_id_uniqueness.1 [reqA, reqB],
   c1_unit_id_uniqueness.2.1 _ reqA (by decide),
   c1_unit_id_uniqueness.2.2 _ reqC (by decide)⟩

def jobU : Job :=
  { id := 1, createdAtUTC := 5, name := "weird", unit := "12abc", cwd := "/w",
    argv := ["x"], env := none, props := none, host := none, user := none,
    notes := none, lastKnownState := none, lastStateAtUTC := none }

def stC4 : DBState := { jobs := [jobU], nextId := 2 }

/-- C4 counterexample: the token "12abc" does NOT parse fully as an integer,
yet FindJobByPartial resolves it in id mode (fmt.Sscanf %d reads the leading
12 and ignores the trailing letters), so a stored job whose unit is exactly
"12abc" is not found: the claim's other-mode lookup (by unit) would have
returned it. -/
theorem c4_counterexample :
    parseInt "12abc" = some 12 ∧
    GetJobByUnit stC4 "12abc" = some jobU ∧
    FindJobByPartial stC4 "12abc" = none := by decide

/-- C4 amended: FindJobByPartial performs a lookup by numeric id exactly
when the token BEGINS with an optionally signed run of decimal digits
whose value fits in int64 (after optional blanks; trailing characters are
ignored, Go Sscanf %d semantics), and otherwise — no leading digits, or
an int64 range overflow — performs a lookup by unit, with no fallback
between the modes; a non-numeric token that matches no stored unit yields
the absent outcome, never an error. -/
theorem c4_resolution_rule (st : DBState) (tok : String) :
    (∀ n, parseInt tok = some n → FindJobByPartial st tok = GetJobByID st n) ∧
    (parseInt tok = none → FindJobByPartial st tok = GetJobByUnit st tok) ∧
    (parseInt tok = none → (∀ j ∈ st.jobs, j.unit ≠ tok) →
      FindJobByPartial st tok = none) := by
  refine ⟨?_, ?_, ?_⟩
  · intro n hn
    unfold FindJobByPartial
    rw [hn]
  · intro hn
    unfold FindJobByPartial
    rw [hn]
  · intro hn habs
    unfold FindJobByPartial
    rw [hn]
    unfold GetJobByUnit
    rw [List.find?_eq_none]
    intro j hj
    simp [habs j hj]

def jobBig : Job :=
  { id := 1, createdAtUTC := 3, name := "big", unit := "99999999999999999999",
    cwd := "/b", argv := ["b"], env := none, props := none, host := none,
    user := none, notes := none, lastKnownState := none, lastStateAtUTC := none }

def stBig : DBState := { jobs := [jobBig], nextId := 2 }

theorem c4_witness :
    FindJobByPartial stC4 "nonexistent.service" = none ∧
    parseInt "99999999999999999999" = none ∧
    FindJobByPartial stBig "99999999999999999999" = some jobBig := by
  refine ⟨(c4_resolution_rule stC4 "nonexistent.service").2.2
    (by decide) (by decide), by decide, ?_⟩
  rw [(c4_resolution_rule stBig "99999999999999999999").2.1 (by decide)]
  decide

def jobE : Job :=
  { id := 1, createdAtUTC := 7, name := "etl", unit := "jr-etl.service",
    cwd := "/data", argv := ["etl"], env := none, props := none, host := none,
    user := none, notes := none, lastKnownState := none, lastStateAtUTC := none }

def stE : DBState := { jobs := [jobE], nextId := 2 }

/-- C8 counterexample: id 42 is absent from the store, yet UpdateJobState
reports success and leaves the store unchanged — a silent no-op, not the
no-op ERROR the claim requires (DB.Exec does not fail on an UPDATE whose
WHERE clause matches no row, and the code never checks RowsAffected). -/
theorem c8_counterexample :
    (∀ j ∈ stE.jobs, (j.id : Int) ≠ 42) ∧
    UpdateJobState stE 50 42 "failed" = .ok stE := ⟨by decide, rfl⟩

/-- C8 amended: UpdateJobState always succeeds; for every stored job whose
id matches it overwrites last_known_state with the given state and
refreshes last_known_state_at to now, and when the id is absent it returns
success with the store unchanged (the absence is NOT reported to the
caller). -/
theorem c8_update_state (st : DBState) (now : Nat) (id : Int) (state : String) :
    ∃ st', UpdateJobState st now id state = .ok st' ∧
      (∀ j ∈ st.jobs, (j.id : Int) = id →
        { j with lastKnownState := some state,
                 lastStateAtUTC := some now } ∈ st'.jobs) ∧
      ((∀ j ∈ st.jobs, (j.id : Int) ≠ id) → st' = st) := by
  refine ⟨_, rfl, ?_, ?_⟩
  · intro j hj hid
    exact List.mem_map.mpr ⟨j, hj, by rw [if_pos (beq_iff_eq.mpr hid)]⟩
  · intro hnone
    have hmap : st.jobs.map (fun j =>
        if (j.id : Int) == id then
          { j with lastKnownState := some state, lastStateAtUTC := some now }
        else j) = st.jobs := by
      conv_rhs => rw [← List.map_id st.jobs]
      exact List.map_congr_left (fun j hj => by
        rw [if_neg (by simpa using hnone j hj)]
        rfl)
    show { st with jobs := _ } = st
    rw [hmap]

theorem c8_witness :
    ∃ st', UpdateJobState stE 9 1 "failed" = .ok st' ∧
      { jobE with lastKnownState := some "failed",
                  lastStateAtUTC := some 9 } ∈ st'.jobs := by
  obtain ⟨st', h1, h2, _⟩ := c8_update_state stE 9 1 "failed"
  exact ⟨st', h1, h2 jobE (by decide) (by decide)⟩

/-- cmd runStop: after the unit is stopped the code records the literal
string "stopped" in the cache via db.UpdateJobState(job.ID, "stopped"); an
update error is only a warning, leaving the store as it was. -/
def runStopUpdate (st : DBState) (now : Nat) (id : Int) : DBState :=
  match UpdateJobState st now id "stopped" with
  | .ok st' => st'
  | .error _ => st

/-- C10: a successful stop records the literal string "stopped" as the
job's cached last_known_state; that string lies outside the documented
state set (active, exited, failed, activating, unknown); and a prune with
failed_only set never deletes a job whose cached state is "stopped", since
the failed filter tests last_known_state = 'failed'. -/
theorem c10_stopped_outside_state_set :
    (∀ st now id j, j ∈ (runStopUpdate st now id).jobs → (j.id : Int) = id →
      j.lastKnownState = some "stopped") ∧
    ("stopped" ≠ "active" ∧ "stopped" ≠ "exited" ∧ "stopped" ≠ "failed" ∧
      "stopped" ≠ "activating" ∧ "stopped" ≠ "unknown") ∧
    (∀ st now keep olderThan j, j ∈ st.jobs →
      j.lastKnownState = some "stopped" →
      j ∈ (PruneJobs st now keep olderThan true).jobs) := by
  refine ⟨?_, by decide, ?_⟩
  · intro st now id j hj hid
    unfold runStopUpdate UpdateJobState at hj
    simp only [List.mem_map] at hj
    obtain ⟨a, _, ha⟩ := hj
    by_cases hcase : ((a.id : Int) == id) = true
    · rw [if_pos hcase] at ha
      rw [← ha]
    · rw [if_neg hcase] at ha
      subst ha
      exact absurd (beq_iff_eq.mpr hid) hcase
  · intro st now keep olderThan j hj hstate
    unfold PruneJobs
    rw [if_neg (by simp)]
    refine List.mem_filter.mpr ⟨hj, ?_⟩
    simp [hstate]

def jobStopped : Job :=
  { id := 3, createdAtUTC := 30, name := "svc", unit := "jr-svc.service",
    cwd := "/s", argv := ["svc"], env := none, props := none, host := none,
    user := none, notes := none, lastKnownState := some "stopped",
    lastStateAtUTC := some 35 }

def stStopped : DBState := { jobs := [jobStopped], nextId := 4 }

theorem c10_witness :
    jobStopped ∈ (PruneJobs stStopped 100 0 0 true).jobs ∧
    ({ jobE with lastKnownState := some "stopped",
                 lastStateAtUTC := some 40 } : Job).lastKnownState =
      some "stopped" :=
  ⟨c10_stopped_outside_state_set.2.2 stStopped 100 0 0 jobStopped
      (by decide) (by decide),
   c10_stopped_outside_state_set.1 stE 40 1
      { jobE with lastKnownState := some "stopped", lastStateAtUTC := some 40 }
      (by decide) (by decide)⟩

/-- The two terminal triggers of the attach session in cmd/run.go: the
interrupt signal channel firing, or the log-follow goroutine completing
with its error (nil or not). -/
inductive AttachEvent where
  | interrupt
  | logDone (err : Option String)
deriving DecidableEq

/-- Observable outcome of the attach session: the session's final state,
the error the RunE function returns (none is success), and the lifecycle
requests sent to the supervisor while the session wound down. -/
structure AttachOutcome where
  finalState : String
  result : Option String
  supervisorRequests : List String
deriving DecidableEq

/-- The body of the select statement in cmd/run.go (attach mode): on the
interrupt channel the code prints detach guidance and returns nil; on the
log-follow channel it returns the follow's error wrapped as
"log stream ended: ...", or nil when the follow ended cleanly. Neither
branch calls StopUnit, KillUnit or any other supervisor operation. -/
def handleAttachEvent : AttachEvent → AttachOutcome
  | .interrupt =>
    { finalState := "detached", result := none, supervisorRequests := [] }
  | .logDone none =>
    { finalState := "detached", result := none, supervisorRequests := [] }
  | .logDone (some e) =>
    { finalState := "detached", result := some ("log stream ended: " ++ e),
      supervisorRequests := [] }

/-- The attach session against the sequence of trigger events in arrival
order: Go's select takes exactly the first event to arrive, the later
events are discarded (only one case body runs, then runRun returns); with
no event the session is still streaming and has no outcome. -/
def attachSession : List AttachEvent → Option AttachOutcome
  | [] => none
  | e :: _ => some (handleAttachEvent e)

/-- C6: exactly one trigger wins. When the interrupt arrives before the
log-follow terminates the session ends detached with success and sends no
lifecycle request to the supervisor, whatever arrives later; when the
log-follow terminates first the session ends detached with the follow's
error (wrapped, none propagated as none) as its result, the later
interrupt ignored, and again no lifecycle request is sent. -/
theorem c6_attach_race_exclusive :
    (∀ rest, attachSession (.interrupt :: rest) =
      some { finalState := "detached", result := none,
             supervisorRequests := [] }) ∧
    (∀ e rest, attachSession (.logDone e :: rest) =
      some { finalState := "detached",
             result := e.map (fun m => "log stream ended: " ++ m),
             supervisorRequests := [] }) := by
  refine ⟨fun rest => rfl, fun e rest => ?_⟩
  cases e <;> rfl

/-- Split a character list at every newline; like splitting a string on
the single-character separator, the result has one piece more than there
are newlines. -/
def splitNl : List Char → List (List Char)
  | [] => [[]]
  | '\n' :: rest => [] :: splitNl rest
  | c :: rest =>
    match splitNl rest with
    | [] => [[c]]
    | l :: ls => (c :: l) :: ls

/-- Go bufio.Scanner line splitting: every newline terminates a line, the
text after the last newline is a final line only when non-empty (a
trailing newline does not produce an empty final line). -/
def splitLinesGo (s : String) : List String :=
  let parts := (splitNl s.data).map (fun l => (⟨l⟩ : String))
  if parts.getLast? = some "" then parts.dropLast else parts

/-- Go strings.HasPrefix on the characters of the strings. -/
def hasPrefixGo (s pre : String) : Bool := pre.data.isPrefixOf s.data

/-- Drop the first n characters; with n the length of a matched ASCII
prefix this is Go strings.TrimPrefix. -/
def dropChars (s : String) (n : Nat) : String := ⟨s.data.drop n⟩

/-- Update one snapshot from one property line of systemctl show output
(the else-if chain of parseShowOutput, with strings.TrimPrefix). -/
def applyShowLine (line : String) (info : UnitInfo) : UnitInfo :=
  if hasPrefixGo line "ActiveState=" then
    { info with activeState := dropChars line 12 }
  else if hasPrefixGo line "SubState=" then
    { info with subState := dropChars line 9 }
  else if hasPrefixGo line "ExecMainStatus=" then
    { info with execMainStatus := dropChars line 15 }
  else if hasPrefixGo line "ExecMainPID=" then
    { info with execMainPID := dropChars line 12 }
  else if hasPrefixGo line "ExecMainStartTimestamp=" then
    { info with execMainStartTimestamp := dropChars line 23 }
  else if hasPrefixGo line "ExecMainExitTimestamp=" then
    { info with execMainExitTimestamp := dropChars line 22 }
  else info

/-- Update the association list at every entry with this key (the Go map
holds one entry per key, which the update mutates in place). -/
def setInfo (m : List (String × UnitInfo)) (k : String)
    (f : UnitInfo → UnitInfo) : List (String × UnitInfo) :=
  m.map (fun kv => if kv.1 = k then (kv.1, f kv.2) else kv)

/-- Case-folding-free association lookup, the Go map read. -/
def lookupInfo (m : List (String × UnitInfo)) (k : String) : Option UnitInfo :=
  (m.find? (fun kv => kv.1 == k)).map Prod.snd

/-- One loop iteration of parseShowOutput: an empty line advances the unit
index (clamped to the last index); a property line updates the snapshot of
the unit at the current index, and is skipped when the index ran past the
requested units. With no requested units the clamp makes the index
negative, where the Go code would index out of range; ShowUnits guards
that case by returning early on an empty unit list. -/
def parseStep (units : List String) :
    Int × List (String × UnitInfo) → String → Int × List (String × UnitInfo) :=
  fun acc line =>
    if line = "" then
      (if acc.1 + 1 ≥ (units.length : Int) then (units.length : Int) - 1
       else acc.1 + 1, acc.2)
    else if acc.1 ≥ (units.length : Int) then acc
    else
      match units.get? acc.1.toNat with
      | none => acc
      | some u => (acc.1, setInfo acc.2 u (applyShowLine line))

/-- systemd parseShowOutput: seed a zeroed snapshot for every requested
unit, then walk the systemctl show output lines, empty lines separating
the per-unit property groups. -/
def parseShowOutput (output : String) (units : List String) :
    List (String × UnitInfo) :=
  ((splitLinesGo output).foldl (parseStep units)
    (0, units.map (fun u => (u, emptyInfo u)))).2

theorem keys_setInfo (m : List (String × UnitInfo)) (k : String)
    (f : UnitInfo → UnitInfo) :
    (setInfo m k f).map Prod.fst = m.map Prod.fst := by
  unfold setInfo
  rw [List.map_map]
  refine List.map_congr_left ?_
  intro kv _
  by_cases h : kv.1 = k <;> simp [h]

theorem parseStep_keys (units : List String)
    (acc : Int × List (String × UnitInfo)) (line : String) :
    ((parseStep units acc line).2).map Prod.fst = acc.2.map Prod.fst := by
  unfold parseStep
  split_ifs
  · rfl
  · rfl
  · rfl
  · rcases hu : units.get? acc.1.toNat with _ | u
    · simp [hu]
    · simp [hu, keys_setInfo]

theorem foldl_parseStep_keys (lines : List String) (units : List String)
    (acc : Int × List (String × UnitInfo)) :
    ((lines.foldl (parseStep units) acc).2).map Prod.fst =
      acc.2.map Prod.fst := by
  induction lines generalizing acc with
  | nil => rfl
  | cons line rest ih =>
    rw [List.foldl_cons, ih, parseStep_keys]

theorem parseShowOutput_keys (output : String) (units : List String) :
    (parseShowOutput output units).map Prod.fst = units := by
  unfold parseShowOutput
  rw [foldl_parseStep_keys]
  rw [List.map_map]
  have : (Prod.fst ∘ fun u => (u, emptyInfo u)) = fun u : String => u := rfl
  rw [this]
  exact List.map_id units

theorem lookupInfo_isSome_of_key {m : List (String × UnitInfo)} {u : String}
    (h : u ∈ m.map Prod.fst) : (lookupInfo m u).isSome = true := by
  unfold lookupInfo
  rcases List.mem_map.mp h with ⟨kv, hkv, hfst⟩
  rw [Option.isSome_map']
  rw [List.find?_isSome]
  exact ⟨kv, hkv, by simp [hfst]⟩

theorem lookupInfo_init {units : List String} {u : String} (h : u ∈ units) :
    lookupInfo (units.map (fun v => (v, emptyInfo v))) u =
      some (emptyInfo u) := by
  induction units with
  | nil => cases h
  | cons v t ih =>
    rw [List.map_cons]
    unfold lookupInfo
    by_cases he : v = u
    · subst he
      rw [List.find?_cons_of_pos _ (by simp)]
      rfl
    · rw [List.find?_cons_of_neg _ (by simp [he])]
      rcases List.mem_cons.mp h with h | h
      · exact absurd h.symm he
      · exact ih h

/-- The state the list command displays for one job: unknown when the
batch result has no entry for the unit (in particular after a failed
ShowUnits call, which runList replaces with an empty map), otherwise the
reconciled snapshot state (outputListJSON / outputListTable). -/
def displayStateList (m : List (String × UnitInfo)) (u : String) : String :=
  match lookupInfo m u with
  | none => "unknown"
  | some info => GetStateString info

/-- cmd runList's state column: on a failed batch query the map is empty
and every job displays as unknown. The query argument is none when
ShowUnits failed. -/
def runListStates (jobs : List Job)
    (query : Option (List (String × UnitInfo))) : List String :=
  let infos := match query with
    | none => []
    | some m => m
  jobs.map (fun j => displayStateList infos j.unit)

/-- cmd runStatus's displayed state: when ShowUnit fails the code
substitutes the zeroed snapshot UnitInfo{Unit: job.Unit} and still calls
GetStateString on it. -/
def runStatusState (u : String) (query : Option UnitInfo) : String :=
  GetStateString (match query with
    | none => emptyInfo u
    | some i => i)

/-- C7 counterexample: when the batch query fails, the status read path
does not report unknown: it reconciles the substituted zeroed snapshot,
whose coarse activity is the empty string, and the passthrough case shows
the empty string as the state. -/
theorem c7_counterexample :
    runStatusState "jr-x.service" none = "" ∧ ("" : String) ≠ "unknown" := by
  exact ⟨rfl, by decide⟩

/-- C7 amended: a successful supervisor query returns an entry for every
requested id (the zeroed snapshot when systemctl reported nothing for it),
and on a whole-batch failure the LIST read path reports every requested
job's state as unknown; the STATUS read path, however, substitutes a
zeroed snapshot and reports its passthrough state, the empty string, not
unknown. -/
theorem c7_entry_per_requested_id :
    (∀ output units u, u ∈ units →
      (lookupInfo (parseShowOutput output units) u).isSome = true) ∧
    (∀ units u, u ∈ units →
      lookupInfo (parseShowOutput "" units) u = some (emptyInfo u)) ∧
    (∀ jobs, runListStates jobs none = jobs.map (fun _ => "unknown")) ∧
    (∀ u, runStatusState u none = "") := by
  refine ⟨?_, ?_, fun jobs => rfl, fun u => rfl⟩
  · intro output units u hu
    refine lookupInfo_isSome_of_key ?_
    rw [parseShowOutput_keys]
    exact hu
  · intro units u hu
    have hsplit : splitLinesGo "" = [] := by decide
    unfold parseShowOutput
    rw [hsplit, List.foldl_nil]
    exact lookupInfo_init hu

def showOutSample : String :=
  "ActiveState=active\nSubState=running\nExecMainStatus=0\n\nActiveState=inactive\nSubState=dead\nExecMainStatus=1\n"

theorem c7_witness :
    (lookupInfo (parseShowOutput showOutSample ["a.service", "b.service"])
        "b.service").isSome = true ∧
    lookupInfo (parseShowOutput "" ["a.service"]) "a.service" =
      some (emptyInfo "a.service") :=
  ⟨c7_entry_per_requested_id.1 showOutSample ["a.service", "b.service"]
      "b.service" (by decide),
   c7_entry_per_requested_id.2.1 ["a.service"] "a.service" (by decide)⟩

/-- How many stored rows were created strictly later than this job: the
rank of the job on the created_at_utc DESC axis. -/
def countNewer (l : List Job) (j : Job) : Nat :=
  (l.filter (fun x => decide (j.createdAtUTC < x.createdAtUTC))).length

theorem countNewer_cons (a : Job) (t : List Job) (j : Job) :
    countNewer (a :: t) j =
      (if j.createdAtUTC < a.createdAtUTC then 1 else 0) + countNewer t j := by
  unfold countNewer
  rw [List.filter_cons]
  by_cases h : j.createdAtUTC < a.createdAtUTC <;> simp [h, Nat.add_comm]

theorem countNewer_eq_zero_of_newest {t : List Job} {a : Job}
    (hta : ∀ x ∈ t, x.createdAtUTC < a.createdAtUTC) : countNewer t a = 0 := by
  unfold countNewer
  rw [List.length_eq_zero]
  rw [List.filter_eq_nil_iff]
  intro x hx
  simp only [decide_eq_true_eq]
  exact Nat.not_lt.mpr (Nat.le_of_lt (hta x hx))

/-- On a list sorted by created_at_utc DESC with pairwise distinct creation
times, membership in the first k entries is exactly having fewer than k
strictly newer entries. -/
theorem mem_take_sorted_iff (s : List Job) (hs : s.Sorted createdGe)
    (hd : s.Pairwise (fun a b => a.createdAtUTC ≠ b.createdAtUTC)) :
    ∀ (k : Nat) (j : Job), j ∈ s.take k ↔ j ∈ s ∧ countNewer s j < k := by
  induction s with
  | nil => intro k j; simp
  | cons a t ih =>
    have hta : ∀ x ∈ t, x.createdAtUTC < a.createdAtUTC := by
      intro x hx
      have h1 : x.createdAtUTC ≤ a.createdAtUTC :=
        (List.sorted_cons.mp hs).1 x hx
      have h2 : a.createdAtUTC ≠ x.createdAtUTC :=
        (List.pairwise_cons.mp hd).1 x hx
      exact Nat.lt_of_le_of_ne h1 (fun he => h2 he.symm)
    have ih' := ih (List.sorted_cons.mp hs).2 (List.pairwise_cons.mp hd).2
    intro k j
    cases k with
    | zero => simp
    | succ k =>
      rw [List.take_succ_cons]
      constructor
      · intro hmem
        rcases List.mem_cons.mp hmem with rfl | hmem'
        · refine ⟨List.mem_cons_self _ _, ?_⟩
          rw [countNewer_cons, countNewer_eq_zero_of_newest hta]
          simp
        · obtain ⟨hjt, hcnt⟩ := (ih' k j).mp hmem'
          refine ⟨List.mem_cons_of_mem _ hjt, ?_⟩
          rw [countNewer_cons, if_pos (hta j hjt)]
          omega
      · rintro ⟨hmem, hcnt⟩
        rcases List.mem_cons.mp hmem with rfl | hjt
        · exact List.mem_cons_self _ _
        · refine List.mem_cons_of_mem _ ((ih' k j).mpr ⟨hjt, ?_⟩)
          rw [countNewer_cons, if_pos (hta j hjt)] at hcnt
          omega

theorem distinctCreated_symm :
    Symmetric (fun a b : Job => a.createdAtUTC ≠ b.createdAtUTC) :=
  fun _ _ h => h.symm

/-- Transfer of the rank characterisation through the sort. -/
theorem mem_take_sortJobs_iff (l : List Job)
    (hd : l.Pairwise (fun a b => a.createdAtUTC ≠ b.createdAtUTC))
    (k : Nat) (j : Job) :
    j ∈ (sortJobs l).take k ↔ j ∈ l ∧ countNewer l j < k := by
  have hperm : List.Perm (sortJobs l) l := List.perm_insertionSort createdGe l
  have hsorted : (sortJobs l).Sorted createdGe :=
    List.sorted_insertionSort createdGe l
  have hd' : (sortJobs l).Pairwise (fun a b => a.createdAtUTC ≠ b.createdAtUTC) :=
    (hperm.pairwise_iff (fun h => h.symm)).mpr hd
  have hcnt : countNewer (sortJobs l) j = countNewer l j :=
    (hperm.filter _).length_eq
  rw [mem_take_sorted_iff _ hsorted hd' k j, hperm.mem_iff, hcnt]

def jobBeta : Job :=
  { id := 1, createdAtUTC := 1, name := "Beta", unit := "jr-beta.service",
    cwd := "/b", argv := ["b"], env := none, props := none, host := none,
    user := none, notes := none, lastKnownState := none, lastStateAtUTC := none }

def stBeta : DBState := { jobs := [jobBeta], nextId := 2 }

def jobAxc : Job :=
  { id := 1, createdAtUTC := 1, name := "axc", unit := "jr-axc.service",
    cwd := "/a", argv := ["a"], env := none, props := none, host := none,
    user := none, notes := none, lastKnownState := none, lastStateAtUTC := none }

def stAxc : DBState := { jobs := [jobAxc], nextId := 2 }

/-- C5 counterexample: the name filter is the SQLite LIKE operator, not a
literal case-sensitive prefix test. The query with prefix "beta" returns
the record named "Beta" although "Beta" does not start with "beta"
(LIKE is ASCII case-insensitive by default), and the query with prefix
"a_c" returns the record named "axc" although "axc" does not start with
"a_c" (the underscore acts as a single-character wildcard). -/
theorem c5_counterexample :
    ((ListJobsByName stBeta "beta" 10).map Job.name = ["Beta"] ∧
      hasPrefixGo "Beta" "beta" = false) ∧
    ((ListJobsByName stAxc "a_c" 10).map Job.name = ["axc"] ∧
      hasPrefixGo "axc" "a_c" = false) := by decide

/-- C5 amended: for every store whose creation times are pairwise distinct,
list-by-name-prefix returns exactly the records whose logical name matches
the SQLite LIKE pattern prefix-then-percent (ASCII case-insensitive, with
percent and underscore in the prefix acting as wildcards) that have fewer
than limit strictly newer such matches, ordered by created_at descending
and truncated to limit. -/
theorem c5_like_filter (st : DBState) (pfx : String) (limit : Nat)
    (hd : st.jobs.Pairwise (fun a b => a.createdAtUTC ≠ b.createdAtUTC)) :
    (∀ j, j ∈ ListJobsByName st pfx limit ↔
      j ∈ st.jobs ∧ sqlLike (pfx ++ "%") j.name = true ∧
        countNewer (st.jobs.filter (fun x => sqlLike (pfx ++ "%") x.name)) j
          < limit) ∧
    (ListJobsByName st pfx limit).Sorted createdGe := by
  have hperm : List.Perm (sortJobs st.jobs) st.jobs :=
    List.perm_insertionSort createdGe st.jobs
  have hsorted : (sortJobs st.jobs).Sorted createdGe :=
    List.sorted_insertionSort createdGe st.jobs
  have hd' : (sortJobs st.jobs).Pairwise
      (fun a b => a.createdAtUTC ≠ b.createdAtUTC) :=
    (hperm.pairwise_iff (fun h => h.symm)).mpr hd
  constructor
  · intro j
    unfold ListJobsByName
    have hs2 : ((sortJobs st.jobs).filter
        (fun x => sqlLike (pfx ++ "%") x.name)).Sorted createdGe :=
      List.Pairwise.filter _ hsorted
    have hd2 : ((sortJobs st.jobs).filter
        (fun x => sqlLike (pfx ++ "%") x.name)).Pairwise
        (fun a b => a.createdAtUTC ≠ b.createdAtUTC) :=
      List.Pairwise.filter _ hd'
    rw [mem_take_sorted_iff _ hs2 hd2 limit j]
    have hcnt : countNewer ((sortJobs st.jobs).filter
          (fun x => sqlLike (pfx ++ "%") x.name)) j =
        countNewer (st.jobs.filter (fun x => sqlLike (pfx ++ "%") x.name)) j :=
      ((hperm.filter _).filter _).length_eq
    rw [hcnt, List.mem_filter, hperm.mem_iff, and_assoc]
  · exact List.Pairwise.sublist (List.take_sublist _ _)
      (List.Pairwise.filter _ hsorted)

def jobAlphaOne : Job :=
  { id := 1, createdAtUTC := 1, name := "alpha-one", unit := "jr-a1.service",
    cwd := "/a", argv := ["a"], env := none, props := none, host := none,
    user := none, notes := none, lastKnownState := none, lastStateAtUTC := none }

def jobAlphaTwo : Job :=
  { id := 2, createdAtUTC := 2, name := "alpha-two", unit := "jr-a2.service",
    cwd := "/a", argv := ["a"], env := none, props := none, host := none,
    user := none, notes := none, lastKnownState := none, lastStateAtUTC := none }

def jobBetaOne : Job :=
  { id := 3, createdAtUTC := 3, name := "beta-one", unit := "jr-b1.service",
    cwd := "/b", argv := ["b"], env := none, props := none, host := none,
    user := none, notes := none, lastKnownState := none, lastStateAtUTC := none }

def stNames : DBState :=
  { jobs := [jobAlphaOne, jobAlphaTwo, jobBetaOne], nextId := 4 }

theorem c5_witness :
    jobAlphaTwo ∈ ListJobsByName stNames "alpha" 10 ∧
    (ListJobsByName stNames "alpha" 10).map Job.name =
      ["alpha-two", "alpha-one"] := by
  constructor
  · exact ((c5_like_filter stNames "alpha" 10 (by decide)).1 jobAlphaTwo).mpr
      (by decide)
  · decide

theorem keepIds_mem_iff (st : DBState) (keep : Int) (j : Job)
    (hc : st.jobs.Pairwise (fun a b => a.createdAtUTC ≠ b.createdAtUTC))
    (hi : st.jobs.Pairwise (fun a b => a.id ≠ b.id))
    (hj : j ∈ st.jobs) :
    j.id ∈ ((sortJobs st.jobs).take keep.toNat).map Job.id ↔
      countNewer st.jobs j < keep.toNat := by
  constructor
  · intro hmem
    rcases List.mem_map.mp hmem with ⟨j', hj', hid⟩
    have hj'mem : j' ∈ st.jobs :=
      (List.perm_insertionSort createdGe st.jobs).mem_iff.mp
        ((List.take_sublist _ _).subset hj')
    have heq : j' = j := by
      by_contra hne
      exact List.Pairwise.forall (fun x y h => h.symm) hi hj'mem hj hne hid
    subst heq
    exact ((mem_take_sortJobs_iff st.jobs hc keep.toNat j').mp hj').2
  · intro hcnt
    exact List.mem_map.mpr
      ⟨j, (mem_take_sortJobs_iff st.jobs hc keep.toNat j).mpr ⟨hj, hcnt⟩, rfl⟩

/-- C3: for every store with pairwise distinct creation times and ids,
prune deletes exactly the records satisfying the conjunction of the active
filters — not among the keep most recent (fewer than keep strictly newer
records) when keep is positive, created strictly before now minus
older_than when older_than is positive, and cached state failed when
failed_only is set — and with no active filter it deletes nothing. -/
theorem c3_prune_conjunction (st : DBState) (now keep olderThan : Int)
    (failedOnly : Bool)
    (hc : st.jobs.Pairwise (fun a b => a.createdAtUTC ≠ b.createdAtUTC))
    (hi : st.jobs.Pairwise (fun a b => a.id ≠ b.id)) :
    (∀ j, j ∈ (PruneJobs st now keep olderThan failedOnly).jobs ↔
      j ∈ st.jobs ∧
        ¬((0 < keep ∨ 0 < olderThan ∨ failedOnly = true) ∧
          (0 < keep → keep.toNat ≤ countNewer st.jobs j) ∧
          (0 < olderThan → (j.createdAtUTC : Int) < now - olderThan) ∧
          (failedOnly = true → j.lastKnownState = some "failed"))) ∧
    (keep ≤ 0 → olderThan ≤ 0 → failedOnly = false →
      PruneJobs st now keep olderThan failedOnly = st) := by
  constructor
  · intro j
    by_cases hact : keep ≤ 0 ∧ olderThan ≤ 0 ∧ failedOnly = false
    · unfold PruneJobs
      rw [if_pos hact]
      obtain ⟨hk, ho, hf⟩ := hact
      subst hf
      constructor
      · intro hj
        refine ⟨hj, ?_⟩
        rintro ⟨hdisj, -, -, -⟩
        rcases hdisj with h | h | h
        · omega
        · omega
        · simp at h
      · exact fun h => h.1
    · unfold PruneJobs
      rw [if_neg hact]
      rw [List.mem_filter]
      have hdisj : 0 < keep ∨ 0 < olderThan ∨ failedOnly = true := by
        by_contra hno
        push_neg at hno
        obtain ⟨h1, h2, h3⟩ := hno
        refine hact ⟨by omega, by omega, ?_⟩
        cases hb : failedOnly
        · rfl
        · exact absurd hb h3
      constructor
      · rintro ⟨hj, hcond⟩
        rw [Bool.not_eq_true'] at hcond
        dsimp only at hcond
        refine ⟨hj, ?_⟩
        rintro ⟨-, hA, hB, hC⟩
        have htrue : ((!(decide (0 < keep)) ||
              !(decide (j.id ∈ ((sortJobs st.jobs).take keep.toNat).map Job.id))) &&
            (!(decide (0 < olderThan)) ||
              decide ((j.createdAtUTC : Int) < now - olderThan)) &&
            (!failedOnly || decide (j.lastKnownState = some "failed"))) = true := by
          simp only [Bool.and_eq_true, Bool.or_eq_true, Bool.not_eq_true',
            decide_eq_true_eq, decide_eq_false_iff_not]
          refine ⟨⟨?_, ?_⟩, ?_⟩
          · by_cases hk : 0 < keep
            · refine Or.inr ?_
              intro hm
              have hlt := (keepIds_mem_iff st keep j hc hi hj).mp hm
              have := hA hk
              omega
            · exact Or.inl hk
          · by_cases ho : 0 < olderThan
            · exact Or.inr (hB ho)
            · exact Or.inl ho
          · cases hb : failedOnly
            · exact Or.inl rfl
            · exact Or.inr (hC hb)
        rw [htrue] at hcond
        simp at hcond
      · rintro ⟨hj, hspec⟩
        refine ⟨hj, ?_⟩
        rw [Bool.not_eq_true']
        rw [Bool.eq_false_iff]
        intro hne
        simp only [Bool.and_eq_true, Bool.or_eq_true, Bool.not_eq_true',
          decide_eq_true_eq, decide_eq_false_iff_not] at hne
        obtain ⟨⟨hA, hB⟩, hC⟩ := hne
        refine hspec ⟨hdisj, ?_, ?_, ?_⟩
        · intro hk
          rcases hA with h | h
          · exact absurd hk h
          · have hnot : ¬ countNewer st.jobs j < keep.toNat :=
              fun hlt => h ((keepIds_mem_iff st keep j hc hi hj).mpr hlt)
            omega
        · intro ho
          rcases hB with h | h
          · exact absurd ho h
          · exact h
        · intro hf
          rcases hC with h | h
          · rw [hf] at h
            simp at h
          · exact h
  · intro h1 h2 h3
    unfold PruneJobs
    rw [if_pos ⟨h1, h2, h3⟩]

def j1c : Job :=
  { id := 1, createdAtUTC := 1, name := "p", unit := "jr-p1.service",
    cwd := "/p", argv := ["p"], env := none, props := none, host := none,
    user := none, notes := none, lastKnownState := none, lastStateAtUTC := none }

def j2c : Job := { j1c with id := 2, createdAtUTC := 2, unit := "jr-p2.service" }

def j3c : Job := { j1c with id := 3, createdAtUTC := 3, unit := "jr-p3.service" }

def j4c : Job := { j1c with id := 4, createdAtUTC := 4, unit := "jr-p4.service" }

def j5c : Job := { j1c with id := 5, createdAtUTC := 5, unit := "jr-p5.service" }

def st5 : DBState := { jobs := [j1c, j2c, j3c, j4c, j5c], nextId := 6 }

theorem c3_witness :
    j5c ∈ (PruneJobs st5 100 2 0 false).jobs ∧
    (PruneJobs st5 100 2 0 false).jobs = [j4c, j5c] ∧
    PruneJobs st5 100 0 0 false = st5 := by
  refine ⟨?_, by decide, ?_⟩
  · exact ((c3_prune_conjunction st5 100 2 0 false (by decide)
      (by decide)).1 j5c).mpr (by decide)
  · exact (c3_prune_conjunction st5 100 0 0 false (by decide)
      (by decide)).2 (by decide) (by decide) rfl
